import Mathlib

/- Shallow embedding of the cooling-shelter ingestion pipeline and geospatial
query core (lib/geo.ts, lib/parseCoolingShelters.ts, App.tsx of the UDC2025-2
repository).  Strings are modelled by Lean strings (lists of Unicode scalar
values); JavaScript numbers appearing in parsed records are modelled by exact
rationals, and the real-valued trigonometric computation of the haversine
distance is modelled over the reals. -/

/-- Character class of the JavaScript white-space and line-terminator set, as
matched by the regular-expression class backslash-s and trimmed by
String.prototype.trim. -/
def jsWhitespace (c : Char) : Bool :=
  c.toNat == 0x09 || c.toNat == 0x0A || c.toNat == 0x0B || c.toNat == 0x0C ||
  c.toNat == 0x0D || c.toNat == 0x20 || c.toNat == 0xA0 || c.toNat == 0x1680 ||
  (decide (0x2000 ≤ c.toNat) && decide (c.toNat ≤ 0x200A)) ||
  c.toNat == 0x2028 || c.toNat == 0x2029 || c.toNat == 0x202F ||
  c.toNat == 0x205F || c.toNat == 0x3000 || c.toNat == 0xFEFF

/-- Model of JavaScript String.prototype.trim: drop white space from both
ends. -/
def jsTrim (s : String) : String :=
  String.mk ((((s.data.dropWhile jsWhitespace).reverse.dropWhile jsWhitespace).reverse))

/-- Geographic point in degrees, as consumed by the geospatial engine
(types.ts GeoPoint).  Coordinates are modelled as real numbers. -/
structure GeoPoint where
  latitude : ℝ
  longitude : ℝ

/-- Mean Earth radius constant from lib/geo.ts. -/
def EARTH_RADIUS_METERS : ℝ := 6371000

/-- Degree-to-radian conversion from lib/geo.ts. -/
noncomputable def toRadians (degrees : ℝ) : ℝ := degrees * Real.pi / 180

/-- Model of JavaScript Math.atan2 via the complex argument: Math.atan2(y, x)
is the argument of the complex number x + y*i, with values in (-pi, pi]. -/
noncomputable def jsAtan2 (y x : ℝ) : ℝ := Complex.arg ⟨x, y⟩

/-- Model of distanceInMeters from lib/geo.ts: haversine great-circle distance
rounded to the nearest whole meter (Math.round rounds half toward positive
infinity, as does Mathlib's round). -/
noncomputable def distanceInMeters (a b : GeoPoint) : ℤ :=
  let lat1 := toRadians a.latitude
  let lat2 := toRadians b.latitude
  let deltaLat := toRadians (b.latitude - a.latitude)
  let deltaLon := toRadians (b.longitude - a.longitude)
  let sinLat := Real.sin (deltaLat / 2)
  let sinLon := Real.sin (deltaLon / 2)
  let haversine := sinLat * sinLat + Real.cos lat1 * Real.cos lat2 * sinLon * sinLon
  let c := 2 * jsAtan2 (Real.sqrt haversine) (Real.sqrt (1 - haversine))
  round (EARTH_RADIUS_METERS * c)

/-- Haversine intermediate value of distanceInMeters, named for the proofs. -/
noncomputable def haversineOf (a b : GeoPoint) : ℝ :=
  Real.sin (toRadians (b.latitude - a.latitude) / 2) *
      Real.sin (toRadians (b.latitude - a.latitude) / 2) +
    Real.cos (toRadians a.latitude) * Real.cos (toRadians b.latitude) *
      Real.sin (toRadians (b.longitude - a.longitude) / 2) *
      Real.sin (toRadians (b.longitude - a.longitude) / 2)

lemma distanceInMeters_eq (a b : GeoPoint) :
    distanceInMeters a b =
      round (EARTH_RADIUS_METERS *
        (2 * jsAtan2 (Real.sqrt (haversineOf a b)) (Real.sqrt (1 - haversineOf a b)))) := rfl

lemma haversineOf_symm (a b : GeoPoint) : haversineOf a b = haversineOf b a := by
  unfold haversineOf
  have hlat : toRadians (a.latitude - b.latitude) = -toRadians (b.latitude - a.latitude) := by
    unfold toRadians; ring
  have hlon : toRadians (a.longitude - b.longitude) = -toRadians (b.longitude - a.longitude) := by
    unfold toRadians; ring
  rw [hlat, hlon, neg_div, neg_div, Real.sin_neg, Real.sin_neg]
  ring

lemma haversineOf_self (a : GeoPoint) : haversineOf a a = 0 := by
  unfold haversineOf
  simp [sub_self, toRadians]

lemma jsAtan2_nonneg_of_nonneg {y x : ℝ} (hy : 0 ≤ y) : 0 ≤ jsAtan2 y x := by
  unfold jsAtan2
  exact Complex.arg_nonneg_iff.mpr hy

/-- Claim C2: for all geographic points a and b (arbitrary finite real
coordinates), the haversine distance with mean Earth radius 6,371,000 m
rounded to the nearest whole meter satisfies distance(a,b) >= 0,
distance(a,a) = 0 and distance(a,b) = distance(b,a). -/
theorem distanceInMeters_metric (a b : GeoPoint) :
    0 ≤ distanceInMeters a b ∧ distanceInMeters a a = 0 ∧
      distanceInMeters a b = distanceInMeters b a := by
  refine ⟨?_, ?_, ?_⟩
  · rw [distanceInMeters_eq]
    have hc : 0 ≤ EARTH_RADIUS_METERS *
        (2 * jsAtan2 (Real.sqrt (haversineOf a b)) (Real.sqrt (1 - haversineOf a b))) := by
      apply mul_nonneg
      · unfold EARTH_RADIUS_METERS; norm_num
      · apply mul_nonneg (by norm_num)
        exact jsAtan2_nonneg_of_nonneg (Real.sqrt_nonneg _)
    rw [round_eq]
    have : (0 : ℤ) ≤ ⌊EARTH_RADIUS_METERS *
        (2 * jsAtan2 (Real.sqrt (haversineOf a b)) (Real.sqrt (1 - haversineOf a b))) + 1 / 2⌋ := by
      apply Int.le_floor.mpr
      push_cast
      linarith
    exact this
  · rw [distanceInMeters_eq, haversineOf_self]
    have h1 : jsAtan2 (Real.sqrt 0) (Real.sqrt (1 - 0)) = 0 := by
      rw [Real.sqrt_zero, sub_zero, Real.sqrt_one]
      unfold jsAtan2
      have : (⟨1, 0⟩ : ℂ) = 1 := rfl
      rw [this, Complex.arg_one]
    rw [h1]
    simp
  · rw [distanceInMeters_eq, distanceInMeters_eq, haversineOf_symm]

/-- Daily opening window of a shelter (types.ts DailyWindow).  The open and
close fields are named openTime and closeTime because open is reserved in
Lean. -/
structure DailyWindow where
  dayLabel : String
  openTime : Option String
  closeTime : Option String
deriving DecidableEq

/-- Canonical record produced by ingestion (types.ts CoolingShelter).
Numeric fields are modelled as exact rationals. -/
structure CoolingShelter where
  id : String
  municipalityCode : Option String
  municipalityName : String
  name : String
  address : String
  latitude : ℚ
  longitude : ℚ
  openings : List DailyWindow
  specialNotes : Option String
  capacity : Option ℚ
  manager : Option String
  email : Option String
  phone : Option String
  url : Option String
  designationDate : Option String
  facilityTypeCategory : Option String
  facilityOwnership : Option String
deriving DecidableEq

/-- Geographic point of a shelter, as built inline by findNearestShelter. -/
noncomputable def shelterPoint (s : CoolingShelter) : GeoPoint :=
  ⟨(s.latitude : ℝ), (s.longitude : ℝ)⟩

/-- Distance from the query point to a shelter, as computed inside the loop of
findNearestShelter in lib/geo.ts. -/
noncomputable def shelterDist (point : GeoPoint) (s : CoolingShelter) : ℤ :=
  distanceInMeters point (shelterPoint s)

/-- One iteration of the findNearestShelter loop: keep the previous best
unless the new shelter is strictly closer (so the first shelter wins ties). -/
noncomputable def nearestStep (point : GeoPoint) (best : Option (CoolingShelter × ℤ))
    (shelter : CoolingShelter) : Option (CoolingShelter × ℤ) :=
  let distanceMeters := shelterDist point shelter
  match best with
  | none => some (shelter, distanceMeters)
  | some b => if distanceMeters < b.2 then some (shelter, distanceMeters) else some b

/-- Model of findNearestShelter from lib/geo.ts: linear scan over the shelter
list accumulating the best record and its distance. -/
noncomputable def findNearestShelter (shelters : List CoolingShelter) (point : GeoPoint) :
    Option (CoolingShelter × ℤ) :=
  shelters.foldl (nearestStep point) none

lemma nearestFold_spec (p : GeoPoint) :
    ∀ (l : List CoolingShelter) (s₀ : CoolingShelter),
      ∃ s d, l.foldl (nearestStep p) (some (s₀, shelterDist p s₀)) = some (s, d) ∧
        d = shelterDist p s ∧ d ≤ shelterDist p s₀ ∧ (∀ t ∈ l, d ≤ shelterDist p t) ∧
        (s = s₀ ∨ ∃ l₁ l₂, l = l₁ ++ s :: l₂ ∧ d < shelterDist p s₀ ∧
          ∀ t ∈ l₁, d < shelterDist p t) := by
  intro l
  induction l with
  | nil =>
    intro s₀
    exact ⟨s₀, shelterDist p s₀, rfl, rfl, le_refl _, by simp, Or.inl rfl⟩
  | cons a rest ih =>
    intro s₀
    by_cases hlt : shelterDist p a < shelterDist p s₀
    · have hstep : List.foldl (nearestStep p) (some (s₀, shelterDist p s₀)) (a :: rest) =
          List.foldl (nearestStep p) (some (a, shelterDist p a)) rest := by
        simp [List.foldl, nearestStep, hlt]
      obtain ⟨s, d, hfold, hd, hle, hmin, hpos⟩ := ih a
      refine ⟨s, d, by rw [hstep]; exact hfold, hd, le_of_lt (lt_of_le_of_lt hle hlt), ?_, ?_⟩
      · intro t ht
        rcases List.mem_cons.mp ht with h | h
        · subst h; exact hle
        · exact hmin t h
      · rcases hpos with h | ⟨l₁, l₂, hsplit, hdlt, hall⟩
        · subst h
          exact Or.inr ⟨[], rest, rfl, hd ▸ hlt, by simp⟩
        · refine Or.inr ⟨a :: l₁, l₂, by simp [hsplit], lt_trans hdlt hlt, ?_⟩
          intro t ht
          rcases List.mem_cons.mp ht with h | h
          · subst h; exact hdlt
          · exact hall t h
    · have hge : shelterDist p s₀ ≤ shelterDist p a := not_lt.mp hlt
      have hstep : List.foldl (nearestStep p) (some (s₀, shelterDist p s₀)) (a :: rest) =
          List.foldl (nearestStep p) (some (s₀, shelterDist p s₀)) rest := by
        simp [List.foldl, nearestStep, hlt]
      obtain ⟨s, d, hfold, hd, hle, hmin, hpos⟩ := ih s₀
      refine ⟨s, d, by rw [hstep]; exact hfold, hd, hle, ?_, ?_⟩
      · intro t ht
        rcases List.mem_cons.mp ht with h | h
        · subst h; exact le_trans hle hge
        · exact hmin t h
      · rcases hpos with h | ⟨l₁, l₂, hsplit, hdlt, hall⟩
        · exact Or.inl h
        · refine Or.inr ⟨a :: l₁, l₂, by simp [hsplit], hdlt, ?_⟩
          intro t ht
          rcases List.mem_cons.mp ht with h | h
          · subst h; exact lt_of_lt_of_le hdlt hge
          · exact hall t h

/-- Claim C1: findNearestShelter performs a linear scan; it returns none on
the empty list, and on a non-empty list it returns a record together with its
distance to the query point, that distance is minimal over the whole list,
the returned record is the first one in iteration order attaining the
minimum (everything strictly before it is strictly farther), and on a
one-element list it returns that record with its distance. -/
theorem findNearestShelter_spec (p : GeoPoint) (x : CoolingShelter) (xs : List CoolingShelter) :
    findNearestShelter [] p = none ∧
    (∃ s d, findNearestShelter (x :: xs) p = some (s, d) ∧ d = shelterDist p s ∧
      (∀ t ∈ x :: xs, d ≤ shelterDist p t) ∧
      ∃ l₁ l₂, x :: xs = l₁ ++ s :: l₂ ∧ ∀ t ∈ l₁, d < shelterDist p t) ∧
    findNearestShelter [x] p = some (x, shelterDist p x) := by
  refine ⟨rfl, ?_, rfl⟩
  have hfirst : findNearestShelter (x :: xs) p =
      List.foldl (nearestStep p) (some (x, shelterDist p x)) xs := rfl
  obtain ⟨s, d, hfold, hd, hle, hmin, hpos⟩ := nearestFold_spec p xs x
  refine ⟨s, d, by rw [hfirst]; exact hfold, hd, ?_, ?_⟩
  · intro t ht
    rcases List.mem_cons.mp ht with h | h
    · subst h; exact hle
    · exact hmin t h
  · rcases hpos with h | ⟨l₁, l₂, hsplit, hdlt, hall⟩
    · subst h
      exact ⟨[], xs, rfl, by simp⟩
    · refine ⟨x :: l₁, l₂, by simp [hsplit], ?_⟩
      intro t ht
      rcases List.mem_cons.mp ht with h | h
      · subst h; exact hdlt
      · exact hall t h

/-- Half-width conversion of one character: code points in the full-width
ASCII block U+FF01..U+FF5E are shifted down by 0xFEE0, everything else is
unchanged (the replacement callback of toHalfWidth in
parseCoolingShelters.ts). -/
def toHalfWidthChar (c : Char) : Char :=
  if 0xFF01 ≤ c.toNat ∧ c.toNat ≤ 0xFF5E then Char.ofNat (c.toNat - 0xFEE0) else c

/-- Model of toHalfWidth from parseCoolingShelters.ts. -/
def toHalfWidth (s : String) : String := String.mk (s.data.map toHalfWidthChar)

/-- Parenthesis rewrite of normalizeKey: every character of the class
consisting of the two ASCII and the two full-width parentheses is replaced by
the replacement callback, which yields '(' only for the full-width open
parenthesis and ')' for every other member of the class. -/
def parenFix (c : Char) : Char :=
  if c = '(' ∨ c = ')' ∨ c = '（' ∨ c = '）' then (if c = '（' then '(' else ')') else c

/-- Full-width colon unification of normalizeKey. -/
def colonFix (c : Char) : Char := if c = '：' then ':' else c

/-- Character-list pipeline of normalizeKey from parseCoolingShelters.ts:
half-width conversion, removal of all whitespace, parenthesis rewrite,
removal of the katakana middle dot, removal of the ideographic space, and
full-width colon unification, in source order. -/
def normalizeKeyList (l : List Char) : List Char :=
  (((((l.map toHalfWidthChar).filter (fun c => !jsWhitespace c)).map parenFix).filter
      (fun c => c != '・')).filter (fun c => c != '　')).map colonFix

/-- Model of normalizeKey from parseCoolingShelters.ts. -/
def normalizeKey (key : String) : String := String.mk (normalizeKeyList key.data)

lemma toNat_ofNat_valid {n : ℕ} (h : n < 55296) : (Char.ofNat n).toNat = n := by
  simp only [Char.ofNat, Nat.isValidChar]
  rw [dif_pos (Or.inl h)]
  simp [Char.ofNatAux, Char.toNat, UInt32.toNat, BitVec.toNat_ofNat]

/-- Stability of a character under every stage of normalizeKey. -/
def stableChar (c : Char) : Prop :=
  toHalfWidthChar c = c ∧ jsWhitespace c = false ∧ parenFix c = c ∧
    c ≠ '・' ∧ c ≠ '　' ∧ colonFix c = c

lemma toHalfWidthChar_fix {x : Char} (h : ¬(0xFF01 ≤ x.toNat ∧ x.toNat ≤ 0xFF5E)) :
    toHalfWidthChar x = x := by
  unfold toHalfWidthChar; rw [if_neg h]

lemma toHalfWidthChar_cases (c : Char) :
    (¬(0xFF01 ≤ c.toNat ∧ c.toNat ≤ 0xFF5E) ∧ toHalfWidthChar c = c) ∨
    (0x21 ≤ (toHalfWidthChar c).toNat ∧ (toHalfWidthChar c).toNat ≤ 0x7E) := by
  by_cases h : 0xFF01 ≤ c.toNat ∧ c.toNat ≤ 0xFF5E
  · right
    unfold toHalfWidthChar
    rw [if_pos h, toNat_ofNat_valid (by omega)]
    omega
  · exact Or.inl ⟨h, toHalfWidthChar_fix h⟩

lemma toHalfWidthChar_idem (c : Char) :
    toHalfWidthChar (toHalfWidthChar c) = toHalfWidthChar c := by
  rcases toHalfWidthChar_cases c with ⟨_, he⟩ | ⟨h1, h2⟩
  · rw [he]; exact he
  · exact toHalfWidthChar_fix (by omega)

lemma toHalfWidthChar_not_fullwidth (c : Char) :
    ¬(0xFF01 ≤ (toHalfWidthChar c).toNat ∧ (toHalfWidthChar c).toNat ≤ 0xFF5E) := by
  rcases toHalfWidthChar_cases c with ⟨hn, he⟩ | ⟨h1, h2⟩
  · rw [he]; exact hn
  · omega

lemma stableChar_pipeline (c : Char)
    (hw : jsWhitespace (toHalfWidthChar c) = false)
    (hd1 : parenFix (toHalfWidthChar c) ≠ '・')
    (hd2 : parenFix (toHalfWidthChar c) ≠ '　') :
    stableChar (colonFix (parenFix (toHalfWidthChar c))) := by
  have hyfix : toHalfWidthChar (toHalfWidthChar c) = toHalfWidthChar c := toHalfWidthChar_idem c
  have hyne_fw := toHalfWidthChar_not_fullwidth c
  by_cases hp : toHalfWidthChar c = '(' ∨ toHalfWidthChar c = ')' ∨
      toHalfWidthChar c = '（' ∨ toHalfWidthChar c = '）'
  · have hyne : toHalfWidthChar c ≠ '（' := by
      intro h; apply hyne_fw; rw [h]; exact ⟨by decide, by decide⟩
    have hz : parenFix (toHalfWidthChar c) = ')' := by
      unfold parenFix; rw [if_pos hp, if_neg hyne]
    rw [hz]
    exact ⟨by decide, by decide, by decide, by decide, by decide, by decide⟩
  · have hz : parenFix (toHalfWidthChar c) = toHalfWidthChar c := by
      unfold parenFix; rw [if_neg hp]
    rw [hz] at hd1 hd2 ⊢
    have hyc : toHalfWidthChar c ≠ '：' := by
      intro h; apply hyne_fw; rw [h]; exact ⟨by decide, by decide⟩
    have hcol : colonFix (toHalfWidthChar c) = toHalfWidthChar c := by
      unfold colonFix; rw [if_neg hyc]
    rw [hcol]
    exact ⟨hyfix, hw, hz, hd1, hd2, hcol⟩

lemma mem_normalizeKeyList_stable (l : List Char) :
    ∀ x ∈ normalizeKeyList l, stableChar x := by
  intro x hx
  unfold normalizeKeyList at hx
  rcases List.mem_map.mp hx with ⟨z, hz, rfl⟩
  rcases List.mem_filter.mp hz with ⟨hz1, hq2⟩
  rcases List.mem_filter.mp hz1 with ⟨hz2, hq1⟩
  rcases List.mem_map.mp hz2 with ⟨y, hy, rfl⟩
  rcases List.mem_filter.mp hy with ⟨hy1, hq0⟩
  rcases List.mem_map.mp hy1 with ⟨c, _, rfl⟩
  apply stableChar_pipeline
  · simpa using hq0
  · simpa using hq1
  · simpa using hq2

lemma normalizeKeyList_cons_stable (a : Char) (t : List Char) (ha : stableChar a) :
    normalizeKeyList (a :: t) = a :: normalizeKeyList t := by
  obtain ⟨h1, h2, h3, h4, h5, h6⟩ := ha
  have hb0 : (!jsWhitespace a) = true := by rw [h2]; rfl
  have hb1 : (a != '・') = true := by simp [h4]
  have hb2 : (a != '　') = true := by simp [h5]
  unfold normalizeKeyList
  simp only [List.map_cons, h1, List.filter_cons, hb0, if_true, h3, hb1, hb2, h6]

lemma normalizeKeyList_of_stable (l : List Char) (h : ∀ x ∈ l, stableChar x) :
    normalizeKeyList l = l := by
  induction l with
  | nil => rfl
  | cons a t ih =>
    rw [normalizeKeyList_cons_stable a t (h a (List.mem_cons_self a t)),
      ih (fun x hx => h x (List.mem_cons_of_mem a hx))]

/-- Claim C4: the header normalizer is idempotent: normalizing an already
normalized label is a no-op. -/
theorem normalizeKey_idempotent (x : String) :
    normalizeKey (normalizeKey x) = normalizeKey x := by
  unfold normalizeKey
  have hdata : (String.mk (normalizeKeyList x.data)).data = normalizeKeyList x.data := rfl
  rw [hdata, normalizeKeyList_of_stable _ (mem_normalizeKeyList_stable x.data)]

/-- Claim C5 (divergence evidence): normalizeKey does not preserve the
open/close role of parentheses.  Because toHalfWidth has already converted
the full-width parentheses to ASCII ones, the full-width branch of the
parenthesis rewrite is dead, and every parenthesis variant, including the
ASCII and full-width open parentheses, collapses to the single ASCII close
parenthesis. -/
theorem normalizeKey_paren_collapse :
    normalizeKey "(" = ")" ∧ normalizeKey "（" = ")" ∧
      normalizeKey ")" = ")" ∧ normalizeKey "）" = ")" := by
  exact ⟨by decide, by decide, by decide, by decide⟩

/-- Null sentinel set NIL_VALUES from parseCoolingShelters.ts; the source
list literal contains the horizontal bar twice, and the duplicate is kept. -/
def NIL_VALUES : List String := ["", "―", "ｰ", "-", "ー", "―", "－", "無し", "なし"]

/-- JavaScript truthiness of an optional string value: undefined and the
empty string are falsy, every other string is truthy. -/
def jsTruthy : Option String → Bool
  | none => false
  | some s => s != ""

/-- Model of cleanValue from parseCoolingShelters.ts; the none input stands
for a value that is not a string. -/
def cleanValue : Option String → Option String
  | none => none
  | some s =>
    let trimmed := jsTrim s
    if NIL_VALUES.contains trimmed then none else some trimmed

/-- Character class kept by the sanitizing replace of parseNumber: digits,
sign characters and the decimal point. -/
def numChar (c : Char) : Bool := c.isDigit || c == '.' || c == '+' || c == '-'

/-- Decimal value of a digit run; an empty run contributes 0. -/
def digitsToNat (l : List Char) : ℕ := l.foldl (fun a c => a * 10 + (c.toNat - 48)) 0

/-- Model of the JavaScript Number() conversion restricted to strings over
the sanitized alphabet of digits, signs and the decimal point: an optional
sign followed by an integer part with an optional fractional part (at least
one of the two parts non-empty); the empty string converts to 0; everything
else is NaN, modelled as none.  Values are exact rationals; the overflow of
astronomically long digit strings to the floating-point infinity is not
modelled. -/
def jsNumber (l : List Char) : Option ℚ :=
  match l with
  | [] => some 0
  | _ =>
    let neg : Bool := match l with | '-' :: _ => true | _ => false
    let rest : List Char := match l with | '+' :: t => t | '-' :: t => t | t => t
    let ip := rest.takeWhile Char.isDigit
    let r1 := rest.dropWhile Char.isDigit
    let signed : ℚ → ℚ := fun q => if neg then -q else q
    match r1 with
    | [] => if ip.isEmpty then none else some (signed (digitsToNat ip : ℚ))
    | '.' :: fp =>
      if fp.all Char.isDigit && !(ip.isEmpty && fp.isEmpty) then
        some (signed ((digitsToNat ip : ℚ) + (digitsToNat fp : ℚ) / (10 : ℚ) ^ fp.length))
      else none
    | _ => none

/-- Model of parseNumber from parseCoolingShelters.ts: reject falsy input,
strip every character that is not a digit, sign or decimal point, reject an
empty remainder, convert with Number() and reject a non-finite result. -/
def parseNumber (value : Option String) : Option ℚ :=
  match value with
  | none => none
  | some s =>
    if s = "" then none
    else
      let sanitized := s.data.filter numChar
      if sanitized.isEmpty then none else jsNumber sanitized

/-- Leftmost position at which the time regex can start matching: the first
decimal digit of the string, returned with the remainder after it. -/
def firstDigitSplit : List Char → Option (Char × List Char)
  | [] => none
  | c :: rest => if c.isDigit then some (c, rest) else firstDigitSplit rest

/-- Greedy hour group of the time regex: one or two digits. -/
def timeHour (c : Char) : List Char → List Char × List Char
  | d :: t => if d.isDigit then ([c, d], t) else ([c], d :: t)
  | [] => ([c], [])

/-- Optional colon-like separator of the time regex (ASCII or full-width). -/
def timeSepSkip : List Char → List Char
  | s :: t => if s == ':' || s == '：' then t else s :: t
  | [] => []

/-- Optional two-digit minute group of the time regex; an absent group is
replaced by the default "00" used by normalizeTime. -/
def timeMinute : List Char → List Char
  | m1 :: m2 :: _ => if m1.isDigit && m2.isDigit then [m1, m2] else ['0', '0']
  | _ => ['0', '0']

/-- First match of the unanchored regex of normalizeTime: a one-or-two digit
hour, an optional colon-like separator and an optional two-digit minute,
matched greedily at the first digit of the string (the all-greedy parse
always succeeds there because the trailing groups are optional, so the
backtracking engine never needs to retreat). -/
def timeMatch (l : List Char) : Option (List Char × List Char) :=
  match firstDigitSplit l with
  | none => none
  | some (c, rest) =>
    let hr := timeHour c rest
    some (hr.1, timeMinute (timeSepSkip hr.2))

/-- Model of normalizeTime from parseCoolingShelters.ts: falsy input and a
non-matching string yield undefined; otherwise the hour is zero-padded to
two digits and joined with the minute by a colon. -/
def normalizeTime (value : Option String) : Option String :=
  match value with
  | none => none
  | some s =>
    if s = "" then none
    else
      match timeMatch s.data with
      | none => none
      | some (hour, minute) =>
        some (String.mk ((if hour.length = 1 then '0' :: hour else hour) ++ ':' :: minute))

lemma firstDigitSplit_digit :
    ∀ l c rest, firstDigitSplit l = some (c, rest) → c.isDigit = true := by
  intro l
  induction l with
  | nil => intro c rest h; cases h
  | cons a t ih =>
    intro c rest h
    unfold firstDigitSplit at h
    by_cases ha : a.isDigit = true
    · rw [if_pos ha] at h
      cases h
      exact ha
    · rw [if_neg ha] at h
      exact ih c rest h

lemma firstDigitSplit_none (l : List Char) (h : ∀ c ∈ l, c.isDigit = false) :
    firstDigitSplit l = none := by
  induction l with
  | nil => rfl
  | cons a t ih =>
    unfold firstDigitSplit
    rw [if_neg (by simp [h a (List.mem_cons_self a t)])]
    exact ih (fun c hc => h c (List.mem_cons_of_mem a hc))

lemma firstDigitSplit_isSome (l : List Char) (h : ∃ c ∈ l, c.isDigit = true) :
    (firstDigitSplit l).isSome = true := by
  induction l with
  | nil => simp at h
  | cons a t ih =>
    unfold firstDigitSplit
    by_cases ha : a.isDigit = true
    · rw [if_pos ha]; rfl
    · rw [if_neg ha]
      apply ih
      rcases h with ⟨c, hc, hd⟩
      rcases List.mem_cons.mp hc with rfl | hmem
      · exact absurd hd ha
      · exact ⟨c, hmem, hd⟩

lemma firstDigitSplit_append (a b : List Char) (h : ∀ c ∈ a, c.isDigit = false) :
    firstDigitSplit (a ++ b) = firstDigitSplit b := by
  induction a with
  | nil => rfl
  | cons x t ih =>
    rw [List.cons_append]
    show (if x.isDigit = true then some (x, t ++ b) else firstDigitSplit (t ++ b)) =
      firstDigitSplit b
    rw [if_neg (by simp [h x (List.mem_cons_self x t)])]
    exact ih (fun c hc => h c (List.mem_cons_of_mem x hc))

lemma timeHour_shape (c : Char) (rest : List Char) :
    (timeHour c rest).1 = [c] ∨ ∃ d, (timeHour c rest).1 = [c, d] ∧ d.isDigit = true := by
  cases rest with
  | nil => exact Or.inl rfl
  | cons d t =>
    simp only [timeHour]
    by_cases hd : d.isDigit = true
    · rw [if_pos hd]
      exact Or.inr ⟨d, rfl, hd⟩
    · rw [if_neg hd]
      exact Or.inl rfl

lemma timeMinute_shape (r : List Char) :
    timeMinute r = ['0', '0'] ∨
      ∃ m1 m2, timeMinute r = [m1, m2] ∧ m1.isDigit = true ∧ m2.isDigit = true := by
  match r with
  | [] => exact Or.inl rfl
  | [m] => exact Or.inl rfl
  | m1 :: m2 :: t =>
    simp only [timeMinute]
    by_cases h : (m1.isDigit && m2.isDigit) = true
    · rw [if_pos h]
      rcases Bool.and_eq_true_iff.mp h with ⟨h1, h2⟩
      exact Or.inr ⟨m1, m2, rfl, h1, h2⟩
    · rw [if_neg h]
      exact Or.inl rfl

lemma timeMatch_shape (l : List Char) (hour minute : List Char)
    (h : timeMatch l = some (hour, minute)) :
    ((∃ c, hour = [c] ∧ c.isDigit = true) ∨
      (∃ c d, hour = [c, d] ∧ c.isDigit = true ∧ d.isDigit = true)) ∧
    (minute = ['0', '0'] ∨
      ∃ m1 m2, minute = [m1, m2] ∧ m1.isDigit = true ∧ m2.isDigit = true) := by
  unfold timeMatch at h
  cases hfd : firstDigitSplit l with
  | none => rw [hfd] at h; cases h
  | some cr =>
    obtain ⟨c, rest⟩ := cr
    have hc := firstDigitSplit_digit l c rest hfd
    rw [hfd] at h
    simp only [Option.some.injEq, Prod.mk.injEq] at h
    obtain ⟨hh, hm⟩ := h
    subst hh
    subst hm
    constructor
    · rcases timeHour_shape c rest with h1 | ⟨d, h1, hd⟩
      · exact Or.inl ⟨c, h1, hc⟩
      · exact Or.inr ⟨c, d, h1, hc, hd⟩
    · exact timeMinute_shape _

lemma string_eq_empty_of_data (b : String) (h : b.data = []) : b = "" := by
  cases b with
  | mk data =>
    have hd : data = [] := h
    rw [hd]

/-- Claim C6: normalizeTime matches the cleaned string against a pattern of a
one-or-two digit hour, an optional colon-like separator and an optional
two-digit minute; the hour is zero-padded, a missing minute group defaults
to "00", a string the regex cannot match (one with no digit) yields absent,
and every non-absent result has exactly the shape HH:MM; in particular
"9:30" normalizes to "09:30", "24:99" is accepted as "24:99", and the
function is total (it never throws). -/
theorem normalizeTime_format_spec :
    normalizeTime (some "9:30") = some "09:30" ∧
    normalizeTime (some "24:99") = some "24:99" ∧
    (∀ s : String, (∀ c ∈ s.data, c.isDigit = false) → normalizeTime (some s) = none) ∧
    (∀ s r : String, normalizeTime (some s) = some r →
      ∃ h1 h2 m1 m2 : Char, r.data = [h1, h2, ':', m1, m2] ∧ h1.isDigit = true ∧
        h2.isDigit = true ∧ m1.isDigit = true ∧ m2.isDigit = true) := by
  refine ⟨by decide, by decide, ?_, ?_⟩
  · intro s hs
    simp only [normalizeTime]
    by_cases hempty : s = ""
    · rw [if_pos hempty]
    · rw [if_neg hempty]
      have htm : timeMatch s.data = none := by
        unfold timeMatch
        rw [firstDigitSplit_none s.data hs]
      rw [htm]
  · intro s r h
    simp only [normalizeTime] at h
    by_cases hempty : s = ""
    · rw [if_pos hempty] at h; cases h
    · rw [if_neg hempty] at h
      cases htm : timeMatch s.data with
      | none => rw [htm] at h; cases h
      | some hm =>
        obtain ⟨hour, minute⟩ := hm
        rw [htm] at h
        have hr : r.data = (if hour.length = 1 then '0' :: hour else hour) ++ ':' :: minute := by
          injection h with h'
          rw [← h']
        obtain ⟨hhour, hminute⟩ := timeMatch_shape s.data hour minute htm
        rcases hhour with ⟨c, hc1, hc2⟩ | ⟨c, d, hc1, hc2, hc3⟩
        · subst hc1
          rcases hminute with hm1 | ⟨m1, m2, hm1, hm2, hm3⟩
          · subst hm1
            exact ⟨'0', c, '0', '0', by simpa using hr, by decide, hc2, by decide, by decide⟩
          · subst hm1
            exact ⟨'0', c, m1, m2, by simpa using hr, by decide, hc2, hm2, hm3⟩
        · subst hc1
          rcases hminute with hm1 | ⟨m1, m2, hm1, hm2, hm3⟩
          · subst hm1
            exact ⟨c, d, '0', '0', by simpa using hr, hc2, hc3, by decide, by decide⟩
          · subst hm1
            exact ⟨c, d, m1, m2, by simpa using hr, hc2, hc3, hm2, hm3⟩

/-- Witness for normalizeTime_format_spec at concrete inputs. -/
theorem normalizeTime_format_spec_witness :
    normalizeTime (some "定休日") = none ∧
    (∃ h1 h2 m1 m2 : Char, ("09:30" : String).data = [h1, h2, ':', m1, m2] ∧ h1.isDigit = true ∧
      h2.isDigit = true ∧ m1.isDigit = true ∧ m2.isDigit = true) :=
  ⟨normalizeTime_format_spec.2.2.1 "定休日" (by decide),
   normalizeTime_format_spec.2.2.2 "9:30" "09:30" (by decide)⟩

/-- Claim C10: the time-coercion pattern match is unanchored.  A note-like
value such as the Japanese string for "closed on the third Tuesday" yields
"03:00"; every string containing at least one decimal digit yields a defined
value built from the first digit run; a digit-free prefix is ignored
entirely; only strings with no digit at all yield absent (the absent case is
part of normalizeTime_format_spec). -/
theorem normalizeTime_unanchored_spec :
    normalizeTime (some "第3火曜休") = some "03:00" ∧
    (∀ s : String, (∃ c ∈ s.data, c.isDigit = true) → (normalizeTime (some s)).isSome = true) ∧
    (∀ a b : String, (∀ c ∈ a.data, c.isDigit = false) →
      normalizeTime (some (a ++ b)) = normalizeTime (some b)) := by
  refine ⟨by decide, ?_, ?_⟩
  · intro s hs
    have hne : s ≠ "" := by
      rcases hs with ⟨c, hc, _⟩
      intro he
      rw [he] at hc
      exact List.not_mem_nil c hc
    simp only [normalizeTime]
    rw [if_neg hne]
    have h1 := firstDigitSplit_isSome s.data hs
    cases hfd : firstDigitSplit s.data with
    | none => rw [hfd] at h1; cases h1
    | some cr =>
      obtain ⟨c, rest⟩ := cr
      have htm : timeMatch s.data =
          some ((timeHour c rest).1, timeMinute (timeSepSkip (timeHour c rest).2)) := by
        unfold timeMatch
        rw [hfd]
      rw [htm]
      rfl
  · intro a b ha
    by_cases hab : a ++ b = ""
    · have hbdata : b.data = [] := by
        have hnil : (a ++ b).data = [] := by rw [hab]
        rw [String.data_append] at hnil
        exact (List.append_eq_nil.mp hnil).2
      rw [hab, string_eq_empty_of_data b hbdata]
    · simp only [normalizeTime]
      rw [if_neg hab]
      have htm : timeMatch (a ++ b).data = timeMatch b.data := by
        rw [String.data_append]
        unfold timeMatch
        rw [firstDigitSplit_append a.data b.data ha]
      rw [htm]
      by_cases hb : b = ""
      · rw [if_pos hb]
        subst hb
        rfl
      · rw [if_neg hb]

/-- Witness for normalizeTime_unanchored_spec at concrete inputs. -/
theorem normalizeTime_unanchored_spec_witness :
    (normalizeTime (some "a1b")).isSome = true ∧
    normalizeTime (some ("第" ++ "3火曜休")) = normalizeTime (some "3火曜休") :=
  ⟨normalizeTime_unanchored_spec.2.1 "a1b" ⟨'1', by decide, by decide⟩,
   normalizeTime_unanchored_spec.2.2 "第" "3火曜休" (by decide)⟩

/-- Lookup in the object built by Object.fromEntries over normalized entries:
a later entry with the same key overwrites an earlier one, and the stored
values are already optional strings. -/
def objLookup (entries : List (String × Option String)) (k : String) : Option String :=
  match entries.reverse.find? (fun e => e.1 == k) with
  | none => none
  | some e => e.2

/-- Model of pickFirst from parseCoolingShelters.ts: return the value of the
first candidate label whose normalized form maps to a truthy value. -/
def pickFirst (entries : List (String × Option String)) : List String → Option String
  | [] => none
  | c :: rest =>
    let v := objLookup entries (normalizeKey c)
    if jsTruthy v then v else pickFirst entries rest

/-- Prefix test over character lists. -/
def isPrefixList : List Char → List Char → Bool
  | [], _ => true
  | _ :: _, [] => false
  | a :: as, b :: bs => a == b && isPrefixList as bs

/-- Infix test over character lists (the needle argument comes first). -/
def hasInfixList (needle : List Char) : List Char → Bool
  | [] => needle.isEmpty
  | c :: t => isPrefixList needle (c :: t) || hasInfixList needle t

/-- Model of JavaScript String.prototype.includes. -/
def strIncludes (hay needle : String) : Bool := hasInfixList needle.data hay.data

/-- Model of keyHasAll from parseCoolingShelters.ts. -/
def keyHasAll (key : String) (needles : List String) : Bool :=
  needles.all (fun needle => strIncludes key needle)

/-- ASCII lower-casing used for the Latin start and end markers. -/
def jsToLower (s : String) : String := String.mk (s.data.map Char.toLower)

/-- Weekday configuration entry of DAY_CONFIG. -/
structure DayCfg where
  key : String
  label : String
  matchers : List String

/-- Model of DAY_CONFIG from parseCoolingShelters.ts, Sunday first. -/
def DAY_CONFIG : List DayCfg :=
  [⟨"sun", "日", ["日曜", "日曜日", "Sun", "SUN"]⟩,
   ⟨"mon", "月", ["月曜", "月曜日", "Mon", "MON"]⟩,
   ⟨"tue", "火", ["火曜", "火曜日", "Tue", "TUE"]⟩,
   ⟨"wed", "水", ["水曜", "水曜日", "Wed", "WED"]⟩,
   ⟨"thu", "木", ["木曜", "木曜日", "Thu", "THU"]⟩,
   ⟨"fri", "金", ["金曜", "金曜日", "Fri", "FRI"]⟩,
   ⟨"sat", "土", ["土曜", "土曜日", "Sat", "SAT"]⟩]

/-- Model of findByMatchers from parseCoolingShelters.ts; the Boolean selects
the opening-time role (true) or the closing-time role (false). -/
def findByMatchers (keys : List String) (matchers : List String) (isStart : Bool) :
    Option String :=
  keys.find? (fun key =>
    matchers.any (fun matcher =>
      keyHasAll key [matcher] &&
        (if isStart then strIncludes key "開始" || strIncludes (jsToLower key) "start"
         else strIncludes key "終了" || strIncludes key "閉" ||
           strIncludes (jsToLower key) "end")))

/-- Insertion-ordered key list of a JavaScript object: the first occurrence
of each key is kept, later duplicates are dropped (Object.keys order). -/
def dedupKeys : List String → List String
  | [] => []
  | k :: rest => k :: dedupKeys (rest.filter (fun x => x != k))
termination_by l => l.length
decreasing_by
  simp only [List.length_cons]
  exact Nat.lt_succ_of_le (List.length_filter_le _ _)

/-- Normalized, cleaned entry list of one raw row, in source column order
(the first stage of the row loop of parseCoolingShelterCsv). -/
def rowEntries (row : List (String × String)) : List (String × Option String) :=
  row.map (fun kv => (normalizeKey kv.1, cleanValue (some kv.2)))

def idCandidates : List String := ["ID", "ＩＤ", "Id"]

def municipalityNameCandidates : List String :=
  ["地方公共団体名", "市区町村名", "地方自治体名", "自治体名"]

def nameCandidates : List String := ["指定暑熱避難施設の名称", "施設名", "名称", "避難施設名"]

def addressCandidates : List String := ["所在地", "住所", "所在地住所", "所在地等"]

def latitudeCandidates : List String := ["緯度", "Latitude"]

def longitudeCandidates : List String := ["経度", "Longitude"]

def municipalityCodeCandidates : List String :=
  ["市区町村コード", "自治体コード", "地方公共団体コード", "全国地方公共団体コード"]

def specialNotesCandidates : List String :=
  ["指定暑熱避難施設を開放することができる日及び時間帯特記事項", "特記事項", "開放特記事項"]

def capacityCandidates : List String :=
  ["指定暑熱避難施設の開放により受け入れることが可能であると見込まれる人数",
   "受入可能人数", "収容可能人数"]

def managerCandidates : List String := ["施設管理者名", "管理者名", "管理者"]

def emailCandidates : List String := ["連絡先メールアドレス", "メールアドレス", "連絡先Mail"]

def phoneCandidates : List String := ["電話番号", "連絡先電話番号", "TEL"]

def urlCandidates : List String := ["URL", "ＵＲＬ", "ホームページ"]

def designationDateCandidates : List String := ["指定日", "指定年月日"]

def facilityOwnershipCandidates : List String := ["公共施設", "施設区分", "施設分類"]

def facilityTypeCandidates : List String :=
  ["施設の種類", "施設の種類　", "施設種類", "施設分類詳細"]

/-- Identifier field of a row, resolved as in parseCoolingShelterCsv. -/
def rowId (row : List (String × String)) : Option String :=
  pickFirst (rowEntries row) idCandidates

/-- Display-name field of a row, resolved as in parseCoolingShelterCsv. -/
def rowName (row : List (String × String)) : Option String :=
  pickFirst (rowEntries row) nameCandidates

/-- Latitude field of a row, resolved as in parseCoolingShelterCsv. -/
def rowLatitude (row : List (String × String)) : Option ℚ :=
  parseNumber (pickFirst (rowEntries row) latitudeCandidates)

/-- Longitude field of a row, resolved as in parseCoolingShelterCsv. -/
def rowLongitude (row : List (String × String)) : Option ℚ :=
  parseNumber (pickFirst (rowEntries row) longitudeCandidates)

/-- Capacity field of a row, resolved as in parseCoolingShelterCsv. -/
def rowCapacity (row : List (String × String)) : Option ℚ :=
  parseNumber (pickFirst (rowEntries row) capacityCandidates)

/-- Seven daily windows of one row: for each weekday the opening and closing
columns are searched among the object keys, the cell value (for a truthy
key) is looked up, and the time is normalized. -/
def rowOpenings (entries : List (String × Option String)) : List DailyWindow :=
  let keys := dedupKeys (entries.map Prod.fst)
  DAY_CONFIG.map (fun day =>
    let startKey := findByMatchers keys day.matchers true
    let endKey := findByMatchers keys day.matchers false
    { dayLabel := day.label
      openTime := normalizeTime (match startKey with
        | some k => if k != "" then objLookup entries k else none
        | none => none)
      closeTime := normalizeTime (match endKey with
        | some k => if k != "" then objLookup entries k else none
        | none => none) })

/-- Model of one iteration of the row loop of parseCoolingShelterCsv: skip a
row with no keys, resolve the scalar fields, and silently drop the row
unless identifier, display name, latitude and longitude are all present
(truthy identifier and name, parseable coordinates). -/
def processRow (row : List (String × String)) : Option CoolingShelter :=
  if (rowEntries row).isEmpty then none
  else if jsTruthy (rowId row) && jsTruthy (rowName row) &&
      (rowLatitude row).isSome && (rowLongitude row).isSome then
    some
      { id := (rowId row).getD ""
        municipalityCode := pickFirst (rowEntries row) municipalityCodeCandidates
        municipalityName :=
          if (pickFirst (rowEntries row) municipalityNameCandidates).getD "" = "" then "埼玉県"
          else (pickFirst (rowEntries row) municipalityNameCandidates).getD ""
        name := (rowName row).getD ""
        address := (pickFirst (rowEntries row) addressCandidates).getD ""
        latitude := (rowLatitude row).getD 0
        longitude := (rowLongitude row).getD 0
        openings := rowOpenings (rowEntries row)
        specialNotes := pickFirst (rowEntries row) specialNotesCandidates
        capacity := rowCapacity row
        manager := pickFirst (rowEntries row) managerCandidates
        email := pickFirst (rowEntries row) emailCandidates
        phone := pickFirst (rowEntries row) phoneCandidates
        url := pickFirst (rowEntries row) urlCandidates
        designationDate := pickFirst (rowEntries row) designationDateCandidates
        facilityTypeCategory := pickFirst (rowEntries row) facilityTypeCandidates
        facilityOwnership := pickFirst (rowEntries row) facilityOwnershipCandidates }
  else none

/-- Model of parseCoolingShelterCsv over already-parsed rows: process each
row in order, keeping the records of the rows that survive. -/
def parseCoolingShelterCsv (rows : List (List (String × String))) : List CoolingShelter :=
  rows.filterMap processRow

lemma pickFirst_nil : ∀ cands : List String, pickFirst [] cands = none := by
  intro cands
  induction cands with
  | nil => rfl
  | cons c rest ih =>
    simp only [pickFirst, objLookup]
    exact ih

lemma processRow_isSome_iff (row : List (String × String)) :
    (processRow row).isSome = true ↔
      (jsTruthy (rowId row) = true ∧ jsTruthy (rowName row) = true ∧
        (rowLatitude row).isSome = true ∧ (rowLongitude row).isSome = true) := by
  unfold processRow
  by_cases hemp : (rowEntries row).isEmpty = true
  · rw [if_pos hemp]
    have hnil : rowEntries row = [] := by
      cases h : rowEntries row with
      | nil => rfl
      | cons a t => rw [h] at hemp; cases hemp
    have hid : rowId row = none := by
      unfold rowId
      rw [hnil, pickFirst_nil]
    constructor
    · intro h; cases h
    · intro ⟨h1, _, _, _⟩
      rw [hid] at h1
      cases h1
  · rw [if_neg hemp]
    by_cases hg : (jsTruthy (rowId row) && jsTruthy (rowName row) &&
        (rowLatitude row).isSome && (rowLongitude row).isSome) = true
    · rw [if_pos hg]
      simp only [Option.isSome_some, true_iff]
      simpa [Bool.and_eq_true, and_assoc] using hg
    · rw [if_neg hg]
      simp only [Option.isSome_none, Bool.false_eq_true, false_iff]
      intro ⟨h1, h2, h3, h4⟩
      exact hg (by simp [h1, h2, h3, h4])

lemma filterMap_length_all_some {α β : Type} (f : α → Option β) (l : List α)
    (h : ∀ r ∈ l, (f r).isSome = true) : (l.filterMap f).length = l.length := by
  induction l with
  | nil => rfl
  | cons a t ih =>
    have ha := h a (List.mem_cons_self a t)
    cases hf : f a with
    | none => rw [hf] at ha; cases ha
    | some b =>
      rw [List.filterMap_cons, hf, List.length_cons,
        ih (fun r hr => h r (List.mem_cons_of_mem a hr))]
      rfl

/-- Claim C3: a row is assembled into a record exactly when identifier,
display name, latitude and longitude all resolve to present values; a row
missing one of them is skipped silently (the pipeline is total and yields a
plain sub-list), so a batch of N rows in which exactly one row lacks its
coordinates yields exactly N-1 records, in source row order. -/
theorem parseCoolingShelterCsv_drop_spec :
    (∀ row : List (String × String), (processRow row).isSome = true ↔
      (jsTruthy (rowId row) = true ∧ jsTruthy (rowName row) = true ∧
        (rowLatitude row).isSome = true ∧ (rowLongitude row).isSome = true)) ∧
    (∀ pre post : List (List (String × String)), ∀ bad : List (String × String),
      (∀ r ∈ pre, (processRow r).isSome = true) →
      (∀ r ∈ post, (processRow r).isSome = true) →
      processRow bad = none →
      parseCoolingShelterCsv (pre ++ bad :: post) =
        parseCoolingShelterCsv pre ++ parseCoolingShelterCsv post ∧
      (parseCoolingShelterCsv (pre ++ bad :: post)).length = pre.length + post.length) := by
  constructor
  · exact processRow_isSome_iff
  · intro pre post bad hpre hpost hbad
    have hsplit : parseCoolingShelterCsv (pre ++ bad :: post) =
        parseCoolingShelterCsv pre ++ parseCoolingShelterCsv post := by
      unfold parseCoolingShelterCsv
      rw [List.filterMap_append, List.filterMap_cons, hbad]
    refine ⟨hsplit, ?_⟩
    rw [hsplit, List.length_append]
    unfold parseCoolingShelterCsv
    rw [filterMap_length_all_some processRow pre hpre,
      filterMap_length_all_some processRow post hpost]

def goodRow1 : List (String × String) :=
  [("ID", "1"), ("名称", "施設A"), ("緯度", "35.9"), ("経度", "139.6")]

def goodRow2 : List (String × String) :=
  [("ID", "2"), ("名称", "施設B"), ("緯度", "36.0"), ("経度", "139.5")]

/-- Row whose latitude cell holds the dash null sentinel, so its coordinates
resolve to absent. -/
def badRow : List (String × String) :=
  [("ID", "3"), ("名称", "施設C"), ("緯度", "-"), ("経度", "139.4")]

/-- Witness for parseCoolingShelterCsv_drop_spec: a three-row batch whose
middle row lacks coordinates yields exactly two records. -/
theorem parseCoolingShelterCsv_drop_spec_witness :
    processRow badRow = none ∧
    (parseCoolingShelterCsv ([goodRow1] ++ badRow :: [goodRow2])).length = 1 + 1 :=
  ⟨by decide,
   (parseCoolingShelterCsv_drop_spec.2 [goodRow1] [goodRow2] badRow
      (by decide) (by decide) (by decide)).2⟩

/-- Row whose capacity cell holds a negative number. -/
def capRow : List (String × String) :=
  [("ID", "1"), ("名称", "施設N"), ("緯度", "35.5"), ("経度", "139.5"), ("受入可能人数", "-5")]

/-- Claim C7 counterexample: ingestion of a row whose capacity cell is "-5"
produces a record whose capacity is the negative number -5, so the stored
capacity is not always non-negative. -/
theorem capacity_negative_cex :
    ((parseCoolingShelterCsv [capRow]).head?.bind CoolingShelter.capacity) = some (-5) ∧
    ¬(0 : ℚ) ≤ (-5 : ℚ) := by
  exact ⟨by decide, by decide⟩

/-- Claim C7 amended: the capacity of every assembled record is exactly the
parseNumber coercion of the resolved capacity cell (a finite rational or
absent, with no sign check), and absence is preserved as distinct from zero:
a missing cell or a null sentinel coerces to absent, never to zero. -/
theorem capacity_amended_spec :
    (∀ row : List (String × String), ∀ r : CoolingShelter, processRow row = some r →
      r.capacity = rowCapacity row) ∧
    (∀ s : String, NIL_VALUES.contains (jsTrim s) = true → cleanValue (some s) = none) ∧
    parseNumber none = none := by
  refine ⟨?_, ?_, rfl⟩
  · intro row r h
    unfold processRow at h
    by_cases hemp : (rowEntries row).isEmpty = true
    · rw [if_pos hemp] at h; cases h
    · rw [if_neg hemp] at h
      by_cases hg : (jsTruthy (rowId row) && jsTruthy (rowName row) &&
          (rowLatitude row).isSome && (rowLongitude row).isSome) = true
      · rw [if_pos hg] at h
        injection h with h'
        rw [← h']
      · rw [if_neg hg] at h; cases h
  · intro s hnil
    simp only [cleanValue]
    rw [if_pos hnil]

/-- Witness for capacity_amended_spec: the dash sentinel cleans to absent. -/
theorem capacity_amended_spec_witness :
    NIL_VALUES.contains (jsTrim "-") = true ∧ cleanValue (some "-") = none :=
  ⟨by decide, capacity_amended_spec.2.1 "-" (by decide)⟩

/-- Travel mode of the duration estimator (lib/geo.ts TravelMode). -/
inductive TravelMode
  | walk
  | drive
deriving DecidableEq

/-- Model of estimateDurationSeconds from lib/geo.ts: distance divided by a
fixed speed constant, 1.2 m/s for walking and 10.0 m/s for driving. -/
noncomputable def estimateDurationSeconds (meters : ℝ) (mode : TravelMode) : ℝ :=
  meters / (match mode with | .walk => 1.2 | .drive => 10.0)

/-- Model of formatDuration from lib/geo.ts.  The falsy test of the source
catches undefined, NaN and the number 0; absence is modelled by none and the
NaN case has no counterpart in the real-number model.  Math.round is
Mathlib's round and the floor division on positive minutes is integer
division. -/
noncomputable def formatDuration (seconds : Option ℝ) : String :=
  match seconds with
  | none => "-"
  | some s =>
    if s = 0 then "-"
    else if round (s / 60) < 60 then toString (round (s / 60)) ++ "分"
    else toString (round (s / 60) / 60) ++ "時間" ++ toString (round (s / 60) % 60) ++ "分"

/-- Claim C9 counterexample: the zero duration is a defined, non-NaN input,
yet formatDuration renders the placeholder for it instead of a whole-minute
value, because the falsy test of the source also catches 0. -/
theorem formatDuration_zero_cex :
    formatDuration (some 0) = "-" ∧ ("-" : String) ≠ "0分" := by
  constructor
  · simp [formatDuration]
  · decide

/-- Claim C9 amended: estimateDuration(meters, mode) is meters / speed(mode)
with pedestrian speed 1.2 m/s, so estimateDuration(1200, walk) = 1000
seconds; for every defined, non-NaN, nonzero seconds value formatDuration
renders whole minutes when the rounded total is below 60 minutes
(formatDuration(1000) is 17 minutes) and hours-and-minutes otherwise, while
an absent input (and the zero value) renders as the fixed placeholder and
never raises an exception. -/
theorem duration_amended_spec :
    estimateDurationSeconds 1200 TravelMode.walk = 1000 ∧
    formatDuration (some 1000) = "17分" ∧
    (∀ s : ℝ, s ≠ 0 → round (s / 60) < 60 →
      formatDuration (some s) = toString (round (s / 60)) ++ "分") ∧
    (∀ s : ℝ, s ≠ 0 → 60 ≤ round (s / 60) →
      formatDuration (some s) =
        toString (round (s / 60) / 60) ++ "時間" ++ toString (round (s / 60) % 60) ++ "分") ∧
    formatDuration none = "-" := by
  have hfmt : ∀ s : ℝ, s ≠ 0 → round (s / 60) < 60 →
      formatDuration (some s) = toString (round (s / 60)) ++ "分" := by
    intro s hs hlt
    simp only [formatDuration]
    rw [if_neg hs, if_pos hlt]
  refine ⟨?_, ?_, hfmt, ?_, rfl⟩
  · unfold estimateDurationSeconds
    norm_num
  · have hr : round ((1000 : ℝ) / 60) = 17 := by
      rw [round_eq]
      norm_num
    rw [hfmt 1000 (by norm_num) (by rw [hr]; norm_num), hr]
    rfl
  · intro s hs hge
    simp only [formatDuration]
    rw [if_neg hs, if_neg (not_lt.mpr hge)]

/-- Witness for duration_amended_spec at the concrete value 1000 s. -/
theorem duration_amended_spec_witness :
    formatDuration (some 1000) = toString (round ((1000 : ℝ) / 60)) ++ "分" :=
  duration_amended_spec.2.2.1 1000 (by norm_num) (by rw [round_eq]; norm_num)

/-- Candidate-source loop of fetchSheltersFromCandidates from App.tsx.  The
network fetch, the encoding fallback of decodeCsvResponse and the CSV parse
of one source are external effects, modelled by the attempt function from
the trimmed source URL to either the thrown error message or the parsed
shelter list; the loop skips blank sources without recording an error,
returns the first non-empty success together with its trimmed URL, records
one failure reason per attempted source, and throws their newline join only
after every candidate is exhausted. -/
def fetchGo (attempt : String → Except String (List CoolingShelter)) :
    List String → List String → Except String (List CoolingShelter × String)
  | [], errors => .error (String.intercalate "\n" errors)
  | source :: rest, errors =>
    let trimmed := jsTrim source
    if trimmed = "" then fetchGo attempt rest errors
    else
      match attempt trimmed with
      | .error msg => fetchGo attempt rest (errors ++ [source ++ ": " ++ msg])
      | .ok shelters =>
        if shelters.length = 0 then
          fetchGo attempt rest (errors ++ [source ++ ": " ++ "データが空でした。"])
        else .ok (shelters, trimmed)

/-- Model of fetchSheltersFromCandidates from App.tsx (empty error list at
entry). -/
def fetchSheltersFromCandidates (attempt : String → Except String (List CoolingShelter))
    (sources : List String) : Except String (List CoolingShelter × String) :=
  fetchGo attempt sources []

/-- Failure reason the loop records for one source: none for a skipped blank
source or a non-empty success, otherwise the source URL joined with the
error message (or with the empty-data message). -/
def failReason (attempt : String → Except String (List CoolingShelter)) (source : String) :
    Option String :=
  if jsTrim source = "" then none
  else
    match attempt (jsTrim source) with
    | .error msg => some (source ++ ": " ++ msg)
    | .ok shelters =>
      if shelters.length = 0 then some (source ++ ": " ++ "データが空でした。") else none

lemma fetchGo_all_fail (attempt : String → Except String (List CoolingShelter)) :
    ∀ (sources : List String) (errors : List String),
      (∀ x ∈ sources, jsTrim x = "" ∨ (failReason attempt x).isSome = true) →
      fetchGo attempt sources errors =
        .error (String.intercalate "\n" (errors ++ sources.filterMap (failReason attempt))) := by
  intro sources
  induction sources with
  | nil =>
    intro errors _
    simp [fetchGo]
  | cons source rest ih =>
    intro errors h
    have hsrc := h source (List.mem_cons_self source rest)
    have hrest := fun x hx => h x (List.mem_cons_of_mem source hx)
    simp only [fetchGo]
    by_cases ht : jsTrim source = ""
    · have hfr : failReason attempt source = none := by
        unfold failReason; rw [if_pos ht]
      rw [if_pos ht, List.filterMap_cons, hfr]
      exact ih errors hrest
    · have hfs : (failReason attempt source).isSome = true := by
        rcases hsrc with h1 | h1
        · exact absurd h1 ht
        · exact h1
      rw [if_neg ht]
      cases hatt : attempt (jsTrim source) with
      | error msg =>
        have hfr : failReason attempt source = some (source ++ ": " ++ msg) := by
          unfold failReason
          rw [if_neg ht, hatt]
        dsimp only
        rw [List.filterMap_cons, hfr, ih (errors ++ [source ++ ": " ++ msg]) hrest,
          List.append_assoc]
        rfl
      | ok shelters =>
        dsimp only
        by_cases hlen : shelters.length = 0
        · have hfr : failReason attempt source =
              some (source ++ ": " ++ "データが空でした。") := by
            unfold failReason
            rw [if_neg ht, hatt]
            dsimp only
            rw [if_pos hlen]
          rw [if_pos hlen, List.filterMap_cons, hfr,
            ih (errors ++ [source ++ ": " ++ "データが空でした。"]) hrest, List.append_assoc]
          rfl
        · exfalso
          have hnone : failReason attempt source = none := by
            unfold failReason
            rw [if_neg ht, hatt]
            dsimp only
            rw [if_neg hlen]
          rw [hnone] at hfs
          cases hfs

lemma fetchGo_first_ok (attempt : String → Except String (List CoolingShelter)) :
    ∀ (pre : List String) (errors : List String) (src : String) (rest : List String)
      (l : List CoolingShelter),
      (∀ x ∈ pre, jsTrim x = "" ∨ (failReason attempt x).isSome = true) →
      jsTrim src ≠ "" → attempt (jsTrim src) = .ok l → l ≠ [] →
      fetchGo attempt (pre ++ src :: rest) errors = .ok (l, jsTrim src) := by
  intro pre
  induction pre with
  | nil =>
    intro errors src rest l _ hne hok hnil
    simp only [List.nil_append, fetchGo]
    rw [if_neg hne, hok]
    dsimp only
    rw [if_neg (by simpa [List.length_eq_zero] using hnil)]
  | cons source pre' ih =>
    intro errors src rest l hpre hne hok hnil
    have hsrc := hpre source (List.mem_cons_self source pre')
    have hrest := fun x hx => hpre x (List.mem_cons_of_mem source hx)
    rw [List.cons_append]
    simp only [fetchGo]
    by_cases ht : jsTrim source = ""
    · rw [if_pos ht]
      exact ih errors src rest l hrest hne hok hnil
    · have hfs : (failReason attempt source).isSome = true := by
        rcases hsrc with h1 | h1
        · exact absurd h1 ht
        · exact h1
      rw [if_neg ht]
      cases hatt : attempt (jsTrim source) with
      | error msg =>
        dsimp only
        exact ih _ src rest l hrest hne hok hnil
      | ok shelters =>
        dsimp only
        by_cases hlen : shelters.length = 0
        · rw [if_pos hlen]
          exact ih _ src rest l hrest hne hok hnil
        · exfalso
          have hnone : failReason attempt source = none := by
            unfold failReason
            rw [if_neg ht, hatt]
            dsimp only
            rw [if_neg hlen]
          rw [hnone] at hfs
          cases hfs

/-- Claim C8: the fetch loop tries candidate sources strictly in order.  When
every source before a succeeding one fails (or is blank and skipped), the
result is exactly the first success's parsed content paired with its trimmed
URL; when every candidate fails, the loop returns, only after exhausting all
candidates, the aggregate error joining one recorded failure reason per
attempted source. -/
theorem fetchSheltersFromCandidates_spec :
    (∀ attempt : String → Except String (List CoolingShelter),
      ∀ pre rest : List String, ∀ src : String, ∀ l : List CoolingShelter,
        (∀ x ∈ pre, jsTrim x = "" ∨ (failReason attempt x).isSome = true) →
        jsTrim src ≠ "" → attempt (jsTrim src) = .ok l → l ≠ [] →
        fetchSheltersFromCandidates attempt (pre ++ src :: rest) = .ok (l, jsTrim src)) ∧
    (∀ attempt : String → Except String (List CoolingShelter), ∀ sources : List String,
      (∀ x ∈ sources, jsTrim x = "" ∨ (failReason attempt x).isSome = true) →
      fetchSheltersFromCandidates attempt sources =
        .error (String.intercalate "\n" (sources.filterMap (failReason attempt)))) := by
  constructor
  · intro attempt pre rest src l hpre hne hok hnil
    exact fetchGo_first_ok attempt pre [] src rest l hpre hne hok hnil
  · intro attempt sources h
    have hall := fetchGo_all_fail attempt sources [] h
    simpa using hall

/-- Concrete record used by the fetch witness. -/
def stubShelter : CoolingShelter :=
  { id := "1", municipalityCode := none, municipalityName := "埼玉県", name := "施設A",
    address := "", latitude := 35, longitude := 139, openings := [], specialNotes := none,
    capacity := none, manager := none, email := none, phone := none, url := none,
    designationDate := none, facilityTypeCategory := none, facilityOwnership := none }

/-- Concrete attempt function for the fetch witness: one URL succeeds with
one record, every other URL fails with an HTTP error message. -/
def attemptStub : String → Except String (List CoolingShelter) :=
  fun url => if url = "good" then .ok [stubShelter] else .error "HTTP 404 Not Found"

/-- Witness for fetchSheltersFromCandidates_spec: a failing source followed
by a succeeding one yields the succeeding source's content, and two failing
sources yield the aggregate error with both reasons. -/
theorem fetchSheltersFromCandidates_spec_witness :
    fetchSheltersFromCandidates attemptStub (["bad"] ++ "good" :: []) =
      .ok ([stubShelter], jsTrim "good") ∧
    fetchSheltersFromCandidates attemptStub ["bad", "worse"] =
      .error (String.intercalate "\n" (["bad", "worse"].filterMap (failReason attemptStub))) :=
  ⟨fetchSheltersFromCandidates_spec.1 attemptStub ["bad"] [] "good" [stubShelter]
      (by decide) (by decide) (by rfl) (by decide),
   fetchSheltersFromCandidates_spec.2 attemptStub ["bad", "worse"] (by decide)⟩
